import Mathlib

/-!
Verification of the authenticated HTTP client core of the repository
(`secureAxios.ts`, `authStore.ts`, `AuthProvider.tsx`): the token bridge,
the request decorator, the single-flight 401 refresh coordinator, the
step-up redirector, and the bootstrap/auth store.

The JavaScript runtime is cooperatively single-threaded: the response
interceptor's error handler runs synchronously from its entry up to its
first suspension point (`await api.post(refresh)` or suspension in the
waiter queue), so the handler's check-and-set is atomic.  We embed the
handler's synchronous part as a pure function on an explicit client
state, and the asynchronous settlement of the refresh call as separate
events on a world holding every in-flight request.
-/

namespace SecureClient

/-- `leadsWith pat s` is true when `pat` is a leading segment of `s`. -/
def leadsWith : List Char → List Char → Bool
  | [], _ => true
  | _ :: _, [] => false
  | a :: as, b :: bs => a == b && leadsWith as bs

/-- `containsSeq pat s` is true when `pat` occurs contiguously in `s`. -/
def containsSeq (pat : List Char) : List Char → Bool
  | [] => leadsWith pat []
  | b :: bs => leadsWith pat (b :: bs) || containsSeq pat bs

/-- JS `String.prototype.includes`: substring (contiguous) containment,
as used by `isAuthEndpoint` in secureAxios.ts. -/
def includes (s pat : String) : Bool :=
  containsSeq pat.data s.data

/-- `isAuthEndpoint` from secureAxios.ts lines 47-55: an undefined (or
empty, since JS `!url` catches `''`) url is not an auth endpoint;
otherwise test the four path fragments by substring containment.
JS `!url` is true for `undefined` and for `''`; an empty string contains
none of the (nonempty) fragments, so mapping `''` through the fragment
test is equivalent to the early return. -/
def isAuthEndpoint : Option String → Bool
  | none => false
  | some url =>
      includes url "/auth/super-admin/login" ||
      includes url "/auth/super-admin/refresh" ||
      includes url "/auth/super-admin/mfa" ||
      includes url "/auth/super-admin/step-up"

/-- The headers this client core owns on an outbound request. -/
structure Headers where
  authorization : Option String
  xDeviceId : Option String
  xDeviceLabel : Option String
deriving DecidableEq, Repr

/-- Result of `getDeviceInfo()` in deviceInfo.ts: `deviceId` is
`string | null`, `deviceLabel` is always a string. -/
structure DeviceInfo where
  deviceId : Option String
  deviceLabel : String
deriving DecidableEq, Repr

/-- JS truthiness of a `string | null` value: non-null and nonempty. -/
def strTruthy : Option String → Bool
  | none => false
  | some s => s ≠ ""

/-- First block of the request interceptor (secureAxios.ts lines
59-62): attach `Authorization: Bearer <token>` when the held token is
truthy. -/
def attachAuth (tok : Option String) (h0 : Headers) : Headers :=
  match tok with
  | some t => if t ≠ "" then { h0 with authorization := some ("Bearer " ++ t) } else h0
  | none => h0

/-- Second block of the request interceptor (secureAxios.ts lines
64-75): when a `window` exists, attach `x-device-id` when the device id
is truthy and, nested inside that branch, `x-device-label` when the
label is truthy. -/
def attachDevice (hasWindow : Bool) (dev : DeviceInfo) (h1 : Headers) : Headers :=
  if hasWindow then
    match dev.deviceId with
    | some d =>
        if d ≠ "" then
          let h2 := { h1 with xDeviceId := some d }
          if dev.deviceLabel ≠ "" then { h2 with xDeviceLabel := some dev.deviceLabel } else h2
        else h1
    | none => h1
  else h1

/-- The request interceptor of secureAxios.ts lines 58-78: the two
blocks in source order. -/
def requestInterceptor (tok : Option String) (hasWindow : Bool)
    (dev : DeviceInfo) (h0 : Headers) : Headers :=
  attachDevice hasWindow dev (attachAuth tok h0)

/-- The module-level mutable state of secureAxios.ts (lines 34-36) plus
two event counters used to state "exactly one" properties:
`refreshCalls` counts POSTs to the refresh endpoint, `redirects` counts
step-up redirects.  The queue holds the ids of suspended waiters. -/
structure ClientState where
  accessToken : Option String
  isRefreshing : Bool
  refreshQueue : List Nat
  refreshCalls : Nat
  redirects : Nat
deriving DecidableEq, Repr

/-- The parts of an axios error response the interceptor inspects:
`status`, whether `data` is a non-null object, and whether `data.stepUp`
is truthy (meaningful only when `dataObj` holds). -/
structure RespInfo where
  status : Nat
  dataObj : Bool
  dataStepUp : Bool
deriving DecidableEq, Repr

/-- The originalRequest config: its url, its current headers, and the
`_retry` marker. -/
structure ReqConfig where
  url : Option String
  headers : Headers
  retry : Bool
deriving DecidableEq, Repr

/-- The `error` argument of the response interceptor's rejection
handler: either not an axios error, or an axios error with an optional
response and a config. -/
inductive ErrorInput
  | nonAxios
  | axios (response : Option RespInfo) (config : ReqConfig)
deriving DecidableEq, Repr

/-- What the handler's synchronous part does with the caller's promise:
reject with the original error, suspend in the waiter queue, or start
the single refresh and await it. -/
inductive Action
  | rejectOriginal
  | enqueue
  | startRefresh
deriving DecidableEq, Repr

/-- Result of the handler's synchronous part. -/
structure HandlerResult where
  state : ClientState
  config : Option ReqConfig
  action : Action
deriving DecidableEq, Repr

/-- The response interceptor's error handler (secureAxios.ts lines
83-142), run synchronously up to its first suspension point, for the
request identified by `rid`.  Branches in source order: non-axios error;
no response; 403 with `{stepUp: true}` (redirect only when a `window`
exists); non-401; auth endpoint; `_retry` already set; otherwise mark
`_retry`, then either enqueue (refresh in flight) or set the refreshing
flag and issue the refresh call. -/
def respondError (hasWindow : Bool) (rid : Nat) (s : ClientState)
    (e : ErrorInput) : HandlerResult :=
  match e with
  | .nonAxios => ⟨s, none, .rejectOriginal⟩
  | .axios none config => ⟨s, some config, .rejectOriginal⟩
  | .axios (some resp) config =>
      if resp.status = 403 ∧ resp.dataObj = true ∧ resp.dataStepUp = true then
        ⟨{ s with redirects := if hasWindow then s.redirects + 1 else s.redirects },
          some config, .rejectOriginal⟩
      else if resp.status ≠ 401 then
        ⟨s, some config, .rejectOriginal⟩
      else if isAuthEndpoint config.url = true then
        ⟨s, some config, .rejectOriginal⟩
      else if config.retry = true then
        ⟨s, some config, .rejectOriginal⟩
      else
        let config' := { config with retry := true }
        if s.isRefreshing = true then
          ⟨{ s with refreshQueue := s.refreshQueue ++ [rid] }, some config', .enqueue⟩
        else
          ⟨{ s with isRefreshing := true, refreshCalls := s.refreshCalls + 1 },
            some config', .startRefresh⟩

/-- What a caller's promise eventually receives: rejection with the
original error, rejection with the refresh failure, or adoption of a
fresh resubmission of the original request (recording the headers the
resubmission left with). -/
inductive Outcome
  | rejectedOriginal
  | rejectedRefreshErr
  | replayed (h : Headers)
deriving DecidableEq, Repr

/-- Pointwise function update (used for the per-request tables). -/
def upd {α : Type} (f : Nat → α) (i : Nat) (a : α) : Nat → α :=
  fun j => if j = i then a else f j

/-- The world: the module state, each request's current config, each
caller's settled outcome (`none` while suspended), the log of
resubmitted requests with the headers they carried, and the id of the
request whose handler is awaiting the refresh call, if any. -/
structure World where
  cs : ClientState
  reqs : Nat → ReqConfig
  outcomes : Nat → Option Outcome
  sent : List (Nat × Headers)
  initiator : Option Nat

/-- A failed response for request `rid` is delivered and its handler
runs its synchronous part. -/
def failEvent (hasWindow : Bool) (rid : Nat) (resp : RespInfo) (w : World) : World :=
  let r := respondError hasWindow rid w.cs (.axios (some resp) (w.reqs rid))
  let reqs' :=
    match r.config with
    | some c => upd w.reqs rid c
    | none => w.reqs
  match r.action with
  | .rejectOriginal =>
      { w with cs := r.state, reqs := reqs',
               outcomes := upd w.outcomes rid (some .rejectedOriginal) }
  | .enqueue => { w with cs := r.state, reqs := reqs' }
  | .startRefresh => { w with cs := r.state, reqs := reqs', initiator := some rid }

/-- One queued waiter's callback (secureAxios.ts lines 133-138) runs:
when the delivered token is truthy, overwrite the stored Authorization
header; then resolve with `api(originalRequest)` — a resubmission whose
headers pass through the request interceptor with the bridge token
current at that instant. -/
def drainOne (hasWindow : Bool) (dev : DeviceInfo) (newTok bridge : Option String)
    (w : World) (j : Nat) : World :=
  let cfg := w.reqs j
  let cfg' :=
    match newTok with
    | some t =>
        if t ≠ "" then
          { cfg with headers := { cfg.headers with authorization := some ("Bearer " ++ t) } }
        else cfg
    | none => cfg
  let h := requestInterceptor bridge hasWindow dev cfg'.headers
  { w with reqs := upd w.reqs j cfg',
           outcomes := upd w.outcomes j (some (.replayed h)),
           sent := w.sent ++ [(j, h)] }

/-- `tokenBridge.setAccessToken` as seen from the world. -/
def bridgeSetW (tok : Option String) (w : World) : World :=
  { w with cs := { w.cs with accessToken := tok } }

/-- Lines 154-156: the initiator's config with its Authorization header
overwritten (unconditionally) to the fresh token. -/
def replayCfg (t : String) (cfg : ReqConfig) : ReqConfig :=
  { cfg with headers := { cfg.headers with authorization := some ("Bearer " ++ t) } }

/-- Lines 151-158 applied after the queue drain: clear the queue, drop
the refreshing flag, then resubmit the initiator's request with its
rewritten header through the request interceptor. -/
def settleOk (hasWindow : Bool) (dev : DeviceInfo) (t : String) (i : Nat) (w2 : World) : World :=
  { cs := { w2.cs with refreshQueue := [], isRefreshing := false },
    reqs := upd w2.reqs i (replayCfg t (w2.reqs i)),
    outcomes := upd w2.outcomes i (some (.replayed
      (requestInterceptor (some t) hasWindow dev (replayCfg t (w2.reqs i)).headers))),
    sent := w2.sent ++
      [(i, requestInterceptor (some t) hasWindow dev (replayCfg t (w2.reqs i)).headers)],
    initiator := none }

/-- The awaited refresh call resolves with `data.accessToken = t`
(secureAxios.ts lines 145-158): store `t` in the bridge, run every
queued callback with `t`, clear the queue, drop the refreshing flag,
then overwrite the initiator's Authorization header (unconditionally)
and resubmit it. -/
def refreshOkEvent (hasWindow : Bool) (dev : DeviceInfo) (t : String) (w : World) : World :=
  match w.initiator with
  | none => w
  | some i =>
      settleOk hasWindow dev t i
        ((bridgeSetW (some t) w).cs.refreshQueue.foldl
          (drainOne hasWindow dev (some t) (some t)) (bridgeSetW (some t) w))

/-- Lines 161-165 applied after the queue drain with `null`: clear the
queue, drop the flag, and reject the initiator's promise with the
refresh failure. -/
def settleFail (i : Nat) (w2 : World) : World :=
  { w2 with cs := { w2.cs with refreshQueue := [], isRefreshing := false },
            outcomes := upd w2.outcomes i (some .rejectedRefreshErr),
            initiator := none }

/-- The awaited refresh call rejects (secureAxios.ts lines 159-165):
clear the bridge token, run every queued callback with `null` (each
still resolves with a resubmission of its original request, headers
unchanged), clear the queue, drop the flag, and reject the initiator's
promise with the refresh failure. -/
def refreshFailEvent (hasWindow : Bool) (dev : DeviceInfo) (w : World) : World :=
  match w.initiator with
  | none => w
  | some i =>
      settleFail i
        ((bridgeSetW none w).cs.refreshQueue.foldl
          (drainOne hasWindow dev none none) (bridgeSetW none w))

/-- System events: a failed response is delivered to the interceptor,
or the in-flight refresh call settles. -/
inductive Event
  | fail (rid : Nat) (resp : RespInfo)
  | refreshOk (t : String)
  | refreshFailed
deriving Repr

/-- One event step. -/
def stepEvent (hasWindow : Bool) (dev : DeviceInfo) (w : World) : Event → World
  | .fail rid resp => failEvent hasWindow rid resp w
  | .refreshOk t => refreshOkEvent hasWindow dev t w
  | .refreshFailed => refreshFailEvent hasWindow dev w

/-- Run a sequence of events. -/
def runTrace (hasWindow : Bool) (dev : DeviceInfo) (w : World) (es : List Event) : World :=
  es.foldl (stepEvent hasWindow dev) w

/-- How many times request `i` has been resubmitted. -/
def sentCount (w : World) (i : Nat) : Nat :=
  (w.sent.filter (fun p => p.1 == i)).length

/-- A world before any failure is handled: flag down, queue empty, no
refresh calls or redirects yet, no settled outcomes, nothing sent. -/
def initialWorld (tok0 : Option String) (cfgs : Nat → ReqConfig) : World :=
  { cs := ⟨tok0, false, [], 0, 0⟩, reqs := cfgs,
    outcomes := fun _ => none, sent := [], initiator := none }

/-! ## The auth store (authStore.ts) and the bootstrap (AuthProvider.tsx) -/

/-- `UserRole` from authStore.ts. -/
inductive UserRole
  | superAdmin
deriving DecidableEq, Repr

/-- `AuthUser` from authStore.ts. -/
structure AuthUser where
  id : String
  email : Option String
  role : UserRole
deriving DecidableEq, Repr

/-- The zustand store's fields. -/
structure AuthStoreState where
  user : Option AuthUser
  accessToken : Option String
  isLoading : Bool
  hasBootstrapped : Bool
deriving DecidableEq, Repr

/-- The two token locations: the secureAxios module token (reached via
`tokenBridge`) and the zustand store. -/
structure AppState where
  bridge : Option String
  store : AuthStoreState
deriving DecidableEq, Repr

/-- `tokenBridge.setAccessToken` (secureAxios.ts lines 39-41). -/
def tokenBridgeSet (t : Option String) (s : AppState) : AppState :=
  { s with bridge := t }

/-- `setAuth` (authStore.ts lines 37-45): write the bridge first, then
set the store fields. -/
def setAuth (u : AuthUser) (t : String) (s : AppState) : AppState :=
  let s1 := tokenBridgeSet (some t) s
  { s1 with store := { user := some u, accessToken := some t,
                       isLoading := false, hasBootstrapped := true } }

/-- `clearAuth` (authStore.ts lines 47-55): clear the bridge first,
then clear the store fields. -/
def clearAuth (s : AppState) : AppState :=
  let s1 := tokenBridgeSet none s
  { s1 with store := { user := none, accessToken := none,
                       isLoading := false, hasBootstrapped := true } }

/-- `setLoading` (authStore.ts line 57). -/
def setLoading (v : Bool) (s : AppState) : AppState :=
  { s with store := { s.store with isLoading := v } }

/-- The state at module load: bridge token null (secureAxios.ts line
34), store fields per authStore.ts lines 30-35. -/
def initialAppState : AppState :=
  { bridge := none,
    store := { user := none, accessToken := none, isLoading := true, hasBootstrapped := false } }

/-- The store's three public operations. -/
inductive StoreOp
  | opSetAuth (u : AuthUser) (t : String)
  | opClearAuth
  | opSetLoading (v : Bool)
deriving DecidableEq, Repr

/-- Apply one store operation. -/
def applyOp (s : AppState) : StoreOp → AppState
  | .opSetAuth u t => setAuth u t s
  | .opClearAuth => clearAuth s
  | .opSetLoading v => setLoading v s

/-- Apply a sequence of store operations. -/
def runOps (s : AppState) (ops : List StoreOp) : AppState :=
  ops.foldl applyOp s

/-- The bootstrap sequence of AuthProvider.tsx lines 23-46, as the
store operations it performs: `setLoading(true)`; then, depending on
whether the bootstrap refresh resolved with a user and token or
rejected, `setAuth` or `clearAuth`; finally `setLoading(false)`. -/
def bootstrapOps (res : Option (AuthUser × String)) : List StoreOp :=
  [.opSetLoading true] ++
    (match res with
     | some (u, t) => [.opSetAuth u t]
     | none => [.opClearAuth]) ++
    [.opSetLoading false]

/-! ## Helper lemmas -/

lemma attachAuth_xDeviceId (tok : Option String) (h0 : Headers) :
    (attachAuth tok h0).xDeviceId = h0.xDeviceId := by
  rcases tok with _ | t <;> simp [attachAuth] <;> split <;> rfl

lemma attachAuth_xDeviceLabel (tok : Option String) (h0 : Headers) :
    (attachAuth tok h0).xDeviceLabel = h0.xDeviceLabel := by
  rcases tok with _ | t <;> simp [attachAuth] <;> split <;> rfl

lemma attachAuth_some (t : String) (ht : t ≠ "") (h0 : Headers) :
    (attachAuth (some t) h0).authorization = some ("Bearer " ++ t) := by
  simp [attachAuth, ht]

lemma attachAuth_falsy (tok : Option String) (h0 : Headers) (h : strTruthy tok = false) :
    attachAuth tok h0 = h0 := by
  rcases tok with _ | t <;> simp [attachAuth, strTruthy] at h ⊢
  simp [h]

lemma attachDevice_authorization (hw : Bool) (dev : DeviceInfo) (h1 : Headers) :
    (attachDevice hw dev h1).authorization = h1.authorization := by
  rcases hw <;> rcases h : dev.deviceId with _ | d <;> simp [attachDevice, h] <;>
    split <;> (try split) <;> rfl

lemma attachDevice_xDeviceId (hw : Bool) (dev : DeviceInfo) (h1 : Headers) :
    (attachDevice hw dev h1).xDeviceId =
      if hw && strTruthy dev.deviceId then dev.deviceId else h1.xDeviceId := by
  rcases hw <;> rcases h : dev.deviceId with _ | d <;>
    simp [attachDevice, strTruthy, h] <;> split <;> (try split) <;> simp_all

lemma attachDevice_xDeviceLabel (hw : Bool) (dev : DeviceInfo) (h1 : Headers) :
    (attachDevice hw dev h1).xDeviceLabel =
      if hw && strTruthy dev.deviceId && decide (dev.deviceLabel ≠ "") then
        some dev.deviceLabel
      else h1.xDeviceLabel := by
  rcases hw <;> rcases h : dev.deviceId with _ | d <;>
    simp [attachDevice, strTruthy, h] <;> split <;> (try split) <;> simp_all

lemma requestInterceptor_auth_some (t : String) (ht : t ≠ "") (hw : Bool)
    (dev : DeviceInfo) (h0 : Headers) :
    (requestInterceptor (some t) hw dev h0).authorization = some ("Bearer " ++ t) := by
  rw [requestInterceptor, attachDevice_authorization, attachAuth_some t ht]

lemma requestInterceptor_auth_falsy (tok : Option String) (h : strTruthy tok = false)
    (hw : Bool) (dev : DeviceInfo) (h0 : Headers) :
    (requestInterceptor tok hw dev h0).authorization = h0.authorization := by
  rw [requestInterceptor, attachDevice_authorization, attachAuth_falsy tok h0 h]

lemma respondError_enqueue (hw : Bool) (rid : Nat) (s : ClientState)
    (cfg : ReqConfig) (resp : RespInfo)
    (h1 : resp.status = 401) (h2 : isAuthEndpoint cfg.url = false)
    (h3 : cfg.retry = false) (h4 : s.isRefreshing = true) :
    respondError hw rid s (.axios (some resp) cfg) =
      ⟨{ s with refreshQueue := s.refreshQueue ++ [rid] },
        some { cfg with retry := true }, .enqueue⟩ := by
  simp [respondError, h1, h2, h3, h4]

lemma respondError_start (hw : Bool) (rid : Nat) (s : ClientState)
    (cfg : ReqConfig) (resp : RespInfo)
    (h1 : resp.status = 401) (h2 : isAuthEndpoint cfg.url = false)
    (h3 : cfg.retry = false) (h4 : s.isRefreshing = false) :
    respondError hw rid s (.axios (some resp) cfg) =
      ⟨{ s with isRefreshing := true, refreshCalls := s.refreshCalls + 1 },
        some { cfg with retry := true }, .startRefresh⟩ := by
  simp [respondError, h1, h2, h3, h4]

lemma leadsWith_iff (p : List Char) : ∀ s : List Char,
    leadsWith p s = true ↔ ∃ r, s = p ++ r := by
  induction p with
  | nil => intro s; simp [leadsWith]
  | cons a as ih =>
      intro s
      cases s with
      | nil =>
          simp [leadsWith]
      | cons b bs =>
          simp only [leadsWith, Bool.and_eq_true, beq_iff_eq, ih, List.cons_append,
            List.cons.injEq]
          constructor
          · rintro ⟨hab, r, hr⟩
            exact ⟨r, hab.symm, hr⟩
          · rintro ⟨r, hba, hr⟩
            exact ⟨hba.symm, r, hr⟩

lemma containsSeq_iff (p : List Char) : ∀ s : List Char,
    containsSeq p s = true ↔ ∃ l r, s = l ++ p ++ r := by
  intro s
  induction s with
  | nil =>
      simp only [containsSeq, leadsWith_iff]
      constructor
      · rintro ⟨r, hr⟩
        exact ⟨[], r, by simpa using hr⟩
      · rintro ⟨l, r, hr⟩
        have h3 : l = [] ∧ p = [] ∧ r = [] := by simpa using hr.symm
        exact ⟨r, by simp [h3.2.1, h3.2.2]⟩
  | cons b bs ih =>
      simp only [containsSeq, Bool.or_eq_true, leadsWith_iff, ih]
      constructor
      · rintro (⟨r, hr⟩ | ⟨l, r, hr⟩)
        · exact ⟨[], r, by simpa using hr⟩
        · exact ⟨b :: l, r, by simp [hr]⟩
      · rintro ⟨l, r, hr⟩
        cases l with
        | nil =>
            exact Or.inl ⟨r, by simpa using hr⟩
        | cons x l =>
            right
            refine ⟨l, r, ?_⟩
            have := hr
            simp only [List.cons_append, List.cons.injEq] at this
            exact this.2

/-- The substring test `includes` agrees with the mathematical
"occurs contiguously" predicate on the underlying character lists. -/
lemma includes_iff (s pat : String) :
    includes s pat = true ↔ ∃ l r, s.data = l ++ pat.data ++ r := by
  exact containsSeq_iff pat.data s.data

/-! ## Claim theorems -/

/-- C8. A failed request with no response at all (network/transport
failure) is rejected with exactly the original error, and the client
state — refreshing flag, pending queue, held token, counters — and the
request config are left unchanged. -/
theorem c8_no_response_passthrough (hw : Bool) (rid : Nat) (s : ClientState)
    (cfg : ReqConfig) :
    respondError hw rid s (.axios none cfg) = ⟨s, some cfg, .rejectOriginal⟩ := rfl

/-- C5. A 401 on one of the authentication endpoints themselves never
triggers a refresh cycle: the handler rejects the original error and
leaves the whole client state and the request config untouched. -/
theorem c5_auth_endpoint_transparent (hw : Bool) (rid : Nat) (s : ClientState)
    (cfg : ReqConfig) (resp : RespInfo)
    (hst : resp.status = 401) (hauth : isAuthEndpoint cfg.url = true) :
    respondError hw rid s (.axios (some resp) cfg) = ⟨s, some cfg, .rejectOriginal⟩ := by
  simp [respondError, hst, hauth]

theorem c5_auth_endpoint_transparent_witness :
    respondError true 0 ⟨some "T", false, [], 0, 0⟩
        (.axios (some ⟨401, false, false⟩)
          ⟨some "/api/auth/super-admin/refresh", ⟨none, none, none⟩, false⟩) =
      ⟨⟨some "T", false, [], 0, 0⟩,
        some ⟨some "/api/auth/super-admin/refresh", ⟨none, none, none⟩, false⟩,
        .rejectOriginal⟩ :=
  c5_auth_endpoint_transparent true 0 _ _ _ rfl (by decide)

/-- C3. At most one refresh-and-replay attempt per logical request:
(a) a 401 whose `_retry` marker is already set is rejected with its own
error, the client state untouched — never retried again; (b) the first
time a 401 enters the refresh path the marker is set, and the request
either joins the in-flight refresh or starts the single refresh —
eliminating any third attempt. -/
theorem c3_retry_at_most_once (hw : Bool) (rid : Nat) (s : ClientState)
    (cfg : ReqConfig) (resp : RespInfo) :
    (cfg.retry = true → resp.status = 401 →
      respondError hw rid s (.axios (some resp) cfg) = ⟨s, some cfg, .rejectOriginal⟩) ∧
    (cfg.retry = false → resp.status = 401 → isAuthEndpoint cfg.url = false →
      (respondError hw rid s (.axios (some resp) cfg)).config =
          some { cfg with retry := true } ∧
      (respondError hw rid s (.axios (some resp) cfg)).action =
          (if s.isRefreshing then Action.enqueue else Action.startRefresh)) := by
  constructor
  · intro hr hst
    simp [respondError, hst, hr]
  · intro hr hst hauth
    by_cases hf : s.isRefreshing = true
    · rw [respondError_enqueue hw rid s cfg resp hst hauth hr hf]
      simp [hf]
    · have hf' : s.isRefreshing = false := by simpa using hf
      rw [respondError_start hw rid s cfg resp hst hauth hr hf']
      simp [hf']

theorem c3_retry_at_most_once_witness :
    respondError true 7 ⟨some "T", false, [], 1, 0⟩
        (.axios (some ⟨401, false, false⟩) ⟨some "/api/data", ⟨none, none, none⟩, true⟩) =
      ⟨⟨some "T", false, [], 1, 0⟩, some ⟨some "/api/data", ⟨none, none, none⟩, true⟩,
        .rejectOriginal⟩ :=
  (c3_retry_at_most_once true 7 ⟨some "T", false, [], 1, 0⟩
      ⟨some "/api/data", ⟨none, none, none⟩, true⟩ ⟨401, false, false⟩).1 rfl rfl

/-- C4. A 403 whose body is a non-null object carrying a truthy
`stepUp` flag (handled client-side, where a `window` exists) performs
exactly one redirect (the redirect counter increases by exactly one),
rejects the caller's promise with the original error, and never touches
the refresh machinery: token, flag, queue, refresh-call counter and the
request config are unchanged, for any client state, in-flight refresh
or not. -/
theorem c4_stepup_redirect (rid : Nat) (s : ClientState) (cfg : ReqConfig)
    (resp : RespInfo) (hst : resp.status = 403) (hobj : resp.dataObj = true)
    (hflag : resp.dataStepUp = true) :
    respondError true rid s (.axios (some resp) cfg) =
      ⟨{ s with redirects := s.redirects + 1 }, some cfg, .rejectOriginal⟩ := by
  simp [respondError, hst, hobj, hflag]

theorem c4_stepup_redirect_witness :
    respondError true 3 ⟨some "T", true, [5], 1, 0⟩
        (.axios (some ⟨403, true, true⟩) ⟨some "/api/data", ⟨none, none, none⟩, false⟩) =
      ⟨⟨some "T", true, [5], 1, 1⟩,
        some ⟨some "/api/data", ⟨none, none, none⟩, false⟩, .rejectOriginal⟩ :=
  c4_stepup_redirect 3 ⟨some "T", true, [5], 1, 0⟩
    ⟨some "/api/data", ⟨none, none, none⟩, false⟩ ⟨403, true, true⟩ rfl rfl rfl

/-- C10. Auth-endpoint classification is substring containment:
`isAuthEndpoint` accepts exactly the defined urls in which one of the
four fragments occurs contiguously; and a 401 whose config carries no
url is classified as a non-auth endpoint, so (not yet retried, no
refresh in flight) it enters the refresh path and starts the refresh. -/
theorem c10_auth_classification :
    (∀ u : Option String, isAuthEndpoint u = true ↔
      ∃ s, u = some s ∧
        ((∃ l r, s.data = l ++ "/auth/super-admin/login".data ++ r) ∨
         (∃ l r, s.data = l ++ "/auth/super-admin/refresh".data ++ r) ∨
         (∃ l r, s.data = l ++ "/auth/super-admin/mfa".data ++ r) ∨
         (∃ l r, s.data = l ++ "/auth/super-admin/step-up".data ++ r))) ∧
    (∀ (hw : Bool) (rid : Nat) (s : ClientState) (cfg : ReqConfig) (resp : RespInfo),
      cfg.url = none → resp.status = 401 → cfg.retry = false →
      s.isRefreshing = false →
      (respondError hw rid s (.axios (some resp) cfg)).action = .startRefresh ∧
      (respondError hw rid s (.axios (some resp) cfg)).state.refreshCalls =
        s.refreshCalls + 1) := by
  constructor
  · intro u
    cases u with
    | none => simp [isAuthEndpoint]
    | some str =>
        simp only [isAuthEndpoint, includes, Bool.or_eq_true, containsSeq_iff,
          Option.some.injEq]
        constructor
        · intro h
          exact ⟨str, rfl, by simpa [or_assoc] using h⟩
        · rintro ⟨s, rfl, h⟩
          simpa [or_assoc] using h
  · intro hw rid s cfg resp hurl hst hr hf
    have hauth : isAuthEndpoint cfg.url = false := by
      rw [hurl]; rfl
    rw [respondError_start hw rid s cfg resp hst hauth hr hf]
    exact ⟨rfl, rfl⟩

theorem c10_auth_classification_witness :
    (isAuthEndpoint (some "/auth/super-admin/mfa/setup") = true) ∧
    (respondError true 2 ⟨none, false, [], 0, 0⟩
        (.axios (some ⟨401, false, false⟩) ⟨none, ⟨none, none, none⟩, false⟩)).action =
      .startRefresh :=
  ⟨(c10_auth_classification.1 (some "/auth/super-admin/mfa/setup")).mpr
      ⟨"/auth/super-admin/mfa/setup", rfl, Or.inr (Or.inr (Or.inl (by
        refine ⟨[], "/setup".data, ?_⟩
        decide)))⟩,
    (c10_auth_classification.2 true 2 ⟨none, false, [], 0, 0⟩
        ⟨none, ⟨none, none, none⟩, false⟩ ⟨401, false, false⟩ rfl rfl rfl rfl).1⟩

/-- C7. `hasBootstrapped` is monotone: it is false at module load and
still false after the bootstrap's initial `setLoading(true)`; the
resolution operations `setAuth`/`clearAuth` set it true while
`setLoading` never changes it — so it flips exactly at the first
resolution of the bootstrap refresh; a full bootstrap run ends with it
true; and no store operation, sequence of operations, or second
bootstrap run (every intermediate point included) ever takes it back to
false. -/
theorem c7_hasBootstrapped_monotone :
    initialAppState.store.hasBootstrapped = false ∧
    (runOps initialAppState [.opSetLoading true]).store.hasBootstrapped = false ∧
    (∀ (s : AppState) (u : AuthUser) (t : String),
        (setAuth u t s).store.hasBootstrapped = true) ∧
    (∀ s : AppState, (clearAuth s).store.hasBootstrapped = true) ∧
    (∀ (s : AppState) (v : Bool),
        (setLoading v s).store.hasBootstrapped = s.store.hasBootstrapped) ∧
    (∀ res, (runOps initialAppState (bootstrapOps res)).store.hasBootstrapped = true) ∧
    (∀ (s : AppState) (op : StoreOp), s.store.hasBootstrapped = true →
        (applyOp s op).store.hasBootstrapped = true) ∧
    (∀ (s : AppState) (ops : List StoreOp), s.store.hasBootstrapped = true →
        (runOps s ops).store.hasBootstrapped = true) := by
  have hop : ∀ (s : AppState) (op : StoreOp), s.store.hasBootstrapped = true →
      (applyOp s op).store.hasBootstrapped = true := by
    intro s op h
    cases op <;> simp [applyOp, setAuth, clearAuth, setLoading, tokenBridgeSet, h]
  have hops : ∀ (ops : List StoreOp) (s : AppState), s.store.hasBootstrapped = true →
      (runOps s ops).store.hasBootstrapped = true := by
    intro ops
    induction ops with
    | nil => intro s h; exact h
    | cons op rest ih =>
        intro s h
        exact ih (applyOp s op) (hop s op h)
  refine ⟨rfl, rfl, ?_, ?_, ?_, ?_, hop, fun s ops => hops ops s⟩
  · intro s u t; rfl
  · intro s; rfl
  · intro s v; rfl
  · intro res
    rcases res with _ | ⟨u, t⟩ <;>
      simp [bootstrapOps, runOps, applyOp, setAuth, clearAuth, setLoading, tokenBridgeSet]

theorem c7_hasBootstrapped_monotone_witness :
    (runOps (clearAuth initialAppState)
        [.opSetLoading true, .opClearAuth, .opSetLoading false]).store.hasBootstrapped
      = true :=
  c7_hasBootstrapped_monotone.2.2.2.2.2.2.2 (clearAuth initialAppState)
    [.opSetLoading true, .opClearAuth, .opSetLoading false] rfl

/-- C9 counterexample. The two token locations need not agree after a
store operation: starting from the module-load state, `setAuth` stores
token `"T1"` in both locations, the response interceptor's refresh
success then writes `"T2"` through `tokenBridge.setAccessToken` alone
(secureAxios.ts line 147), and after the store operation
`setLoading(false)` the store still holds `"T1"` while the bridge holds
`"T2"`. -/
theorem c9_counterexample :
    ¬ ((setLoading false (tokenBridgeSet (some "T2")
          (setAuth ⟨"u1", none, .superAdmin⟩ "T1" initialAppState))).store.accessToken =
       (setLoading false (tokenBridgeSet (some "T2")
          (setAuth ⟨"u1", none, .superAdmin⟩ "T1" initialAppState))).bridge) := by
  decide

/-- C9 amended. `setAuth(u, t)` sets both locations to `t` and
`clearAuth` sets both to `null` (the model composes the bridge write
first, the store write second, as the source does), so the two
locations agree after every `setAuth`/`clearAuth`; `setLoading`
touches neither, so it preserves agreement; and agreement is an
invariant of every sequence of store operations — it is only an
intervening `tokenBridge.setAccessToken` from the refresh path that can
break it until the next `setAuth`/`clearAuth`. -/
theorem c9_amended_bridge_store_agreement (s : AppState) (u : AuthUser) (t : String) :
    (setAuth u t s).bridge = some t ∧
    (setAuth u t s).store.accessToken = some t ∧
    (clearAuth s).bridge = none ∧
    (clearAuth s).store.accessToken = none ∧
    (∀ v, s.store.accessToken = s.bridge →
        (setLoading v s).store.accessToken = (setLoading v s).bridge ∧
        (setLoading v s).bridge = s.bridge) ∧
    (∀ ops : List StoreOp, s.store.accessToken = s.bridge →
        (runOps s ops).store.accessToken = (runOps s ops).bridge) := by
  have hop : ∀ (s : AppState) (op : StoreOp), s.store.accessToken = s.bridge →
      (applyOp s op).store.accessToken = (applyOp s op).bridge := by
    intro s op h
    cases op <;> simp [applyOp, setAuth, clearAuth, setLoading, tokenBridgeSet, h]
  have hops : ∀ (ops : List StoreOp) (s : AppState), s.store.accessToken = s.bridge →
      (runOps s ops).store.accessToken = (runOps s ops).bridge := by
    intro ops
    induction ops with
    | nil => intro s h; exact h
    | cons op rest ih =>
        intro s h
        exact ih (applyOp s op) (hop s op h)
  refine ⟨rfl, rfl, rfl, rfl, ?_, fun ops h => hops ops s h⟩
  intro v h
  exact ⟨h, rfl⟩

theorem c9_amended_bridge_store_agreement_witness :
    (runOps initialAppState
        [.opSetAuth ⟨"u1", none, .superAdmin⟩ "T1", .opSetLoading false,
         .opClearAuth]).store.accessToken =
      (runOps initialAppState
        [.opSetAuth ⟨"u1", none, .superAdmin⟩ "T1", .opSetLoading false,
         .opClearAuth]).bridge :=
  (c9_amended_bridge_store_agreement initialAppState ⟨"u1", none, .superAdmin⟩ "T1").2.2.2.2.2
    [.opSetAuth ⟨"u1", none, .superAdmin⟩ "T1", .opSetLoading false, .opClearAuth] rfl

/-- C6. The request decorator: (a) a truthy held token is attached as
`Authorization: Bearer <token>`; (b) a falsy held token (absent or
empty string) leaves the Authorization header untouched, so on a fresh
request none is attached; (c) client-side, a truthy device id is
attached as `x-device-id` and, with a truthy label, `x-device-label` —
independently of the token; (d) the device headers never depend on
which token is held; and (e) the interceptor runs again on a replayed
request: when the refresh settles with token `t`, the initiator's
replay leaves with `Authorization: Bearer t` — the token current at
replay time — whatever header its config carried at original send
time. -/
theorem c6_request_decorator :
    (∀ (hw : Bool) (dev : DeviceInfo) (h0 : Headers) (t : String), t ≠ "" →
        (requestInterceptor (some t) hw dev h0).authorization = some ("Bearer " ++ t)) ∧
    (∀ (hw : Bool) (dev : DeviceInfo) (h0 : Headers) (tok : Option String),
        strTruthy tok = false →
        (requestInterceptor tok hw dev h0).authorization = h0.authorization) ∧
    (∀ (dev : DeviceInfo) (h0 : Headers) (tok : Option String) (d : String),
        dev.deviceId = some d → d ≠ "" →
        (requestInterceptor tok true dev h0).xDeviceId = some d ∧
        (dev.deviceLabel ≠ "" →
          (requestInterceptor tok true dev h0).xDeviceLabel = some dev.deviceLabel)) ∧
    (∀ (hw : Bool) (dev : DeviceInfo) (h0 : Headers) (tok tok' : Option String),
        (requestInterceptor tok hw dev h0).xDeviceId =
          (requestInterceptor tok' hw dev h0).xDeviceId ∧
        (requestInterceptor tok hw dev h0).xDeviceLabel =
          (requestInterceptor tok' hw dev h0).xDeviceLabel) ∧
    (∀ (hw : Bool) (dev : DeviceInfo) (w : World) (i : Nat) (t : String),
        w.initiator = some i → t ≠ "" → w.cs.refreshQueue = [] →
        ∃ h : Headers, (refreshOkEvent hw dev t w).outcomes i = some (.replayed h) ∧
          h.authorization = some ("Bearer " ++ t)) := by
  refine ⟨?_, ?_, ?_, ?_, ?_⟩
  · intro hw dev h0 t ht
    exact requestInterceptor_auth_some t ht hw dev h0
  · intro hw dev h0 tok h
    exact requestInterceptor_auth_falsy tok h hw dev h0
  · intro dev h0 tok d hd hne
    constructor
    · rw [requestInterceptor, attachDevice_xDeviceId]
      simp [strTruthy, hd, hne]
    · intro hlab
      rw [requestInterceptor, attachDevice_xDeviceLabel]
      simp [strTruthy, hd, hne, hlab]
  · intro hw dev h0 tok tok'
    constructor
    · rw [requestInterceptor, requestInterceptor, attachDevice_xDeviceId,
        attachDevice_xDeviceId, attachAuth_xDeviceId, attachAuth_xDeviceId]
    · rw [requestInterceptor, requestInterceptor, attachDevice_xDeviceLabel,
        attachDevice_xDeviceLabel, attachAuth_xDeviceLabel, attachAuth_xDeviceLabel]
  · intro hw dev w i t hinit ht hq
    have hqb : (bridgeSetW (some t) w).cs.refreshQueue = [] := hq
    refine ⟨requestInterceptor (some t) hw dev
      (replayCfg t (w.reqs i)).headers, ?_, ?_⟩
    · simp only [refreshOkEvent, hinit, hqb, List.foldl_nil]
      simp [settleOk, bridgeSetW, upd]
    · exact requestInterceptor_auth_some t ht hw dev _

theorem c6_request_decorator_witness :
    (requestInterceptor (some "T2") true ⟨some "dev-1", "Linux desktop"⟩
        ⟨some "Bearer T1", none, none⟩) =
      ⟨some "Bearer T2", some "dev-1", some "Linux desktop"⟩ := by
  have h1 := c6_request_decorator.1 true ⟨some "dev-1", "Linux desktop"⟩
    ⟨some "Bearer T1", none, none⟩ "T2" (by decide)
  have h2 := c6_request_decorator.2.2.1 ⟨some "dev-1", "Linux desktop"⟩
    ⟨some "Bearer T1", none, none⟩ (some "T2") "dev-1" rfl (by decide)
  have h3 := h2.2 (by decide)
  have h4 := h2.1
  cases hh : requestInterceptor (some "T2") true ⟨some "dev-1", "Linux desktop"⟩
      ⟨some "Bearer T1", none, none⟩
  rw [hh] at h1 h3 h4
  simp only at h1 h3 h4
  simp [h1, h3, h4]

/-! ## Single-flight machinery: behaviour of a burst of 401s -/

lemma filter_beq_length_zero {js : List Nat} {j : Nat} (hj : j ∉ js) :
    (js.filter (fun x => x == j)).length = 0 := by
  induction js with
  | nil => rfl
  | cons a as ih =>
      have hne : (a == j) = false := by
        simp only [beq_eq_false_iff_ne]
        rintro rfl
        exact hj (List.mem_cons_self a as)
      have has : j ∉ as := fun h => hj (List.mem_cons_of_mem a h)
      simp [List.filter_cons, hne, ih has]

lemma filter_beq_length_one {js : List Nat} (hnd : js.Nodup) {j : Nat} (hj : j ∈ js) :
    (js.filter (fun x => x == j)).length = 1 := by
  induction js with
  | nil => cases hj
  | cons a as ih =>
      rcases List.mem_cons.mp hj with h | hmem
      · have ha : (a == j) = true := by simp [h.symm]
        have hna : j ∉ as := by rw [h]; exact (List.nodup_cons.mp hnd).1
        simp [List.filter_cons, ha, filter_beq_length_zero hna]
      · have hne : (a == j) = false := by
          simp only [beq_eq_false_iff_ne]
          rintro rfl
          exact (List.nodup_cons.mp hnd).1 hmem
        simp [List.filter_cons, hne, ih (List.nodup_cons.mp hnd).2 hmem]

lemma filter_fst_map {l : List (Nat × Headers)} {js : List Nat}
    (hmap : l.map Prod.fst = js) (j : Nat) :
    (l.filter (fun p => p.1 == j)).length = (js.filter (fun x => x == j)).length := by
  induction l generalizing js with
  | nil => subst hmap; rfl
  | cons a as ih =>
      subst hmap
      cases hb : (a.1 == j) <;>
        simp [List.filter_cons, hb, ih rfl]

/-- Handling a burst of 401-failed requests while a refresh is already
in flight: each is marked retried and enqueued, in arrival order; the
flag, token, counters, outcomes, initiator and sent log are untouched,
and no second refresh call is issued. -/
lemma runFails_refreshing (hw : Bool) (dev : DeviceInfo) (resps : Nat → RespInfo)
    (js : List Nat) :
    ∀ w : World, w.cs.isRefreshing = true → js.Nodup →
    (∀ j ∈ js, (resps j).status = 401 ∧ isAuthEndpoint ((w.reqs j).url) = false ∧
      (w.reqs j).retry = false) →
    (runTrace hw dev w (js.map (fun j => Event.fail j (resps j)))).cs =
        { w.cs with refreshQueue := w.cs.refreshQueue ++ js } ∧
    (runTrace hw dev w (js.map (fun j => Event.fail j (resps j)))).initiator = w.initiator ∧
    (runTrace hw dev w (js.map (fun j => Event.fail j (resps j)))).outcomes = w.outcomes ∧
    (runTrace hw dev w (js.map (fun j => Event.fail j (resps j)))).sent = w.sent ∧
    (∀ j ∈ js, (runTrace hw dev w (js.map (fun j => Event.fail j (resps j)))).reqs j =
        { w.reqs j with retry := true }) ∧
    (∀ k, k ∉ js →
      (runTrace hw dev w (js.map (fun j => Event.fail j (resps j)))).reqs k = w.reqs k) := by
  induction js with
  | nil =>
      intro w href _ _
      refine ⟨by simp [runTrace], rfl, rfl, rfl, by simp, fun k _ => rfl⟩
  | cons j rest ih =>
      intro w href hnd hok
      have hj := hok j (List.mem_cons_self j rest)
      have hstep : stepEvent hw dev w (Event.fail j (resps j)) =
          { w with cs := { w.cs with refreshQueue := w.cs.refreshQueue ++ [j] },
                   reqs := upd w.reqs j { w.reqs j with retry := true } } := by
        simp [stepEvent, failEvent,
          respondError_enqueue hw j w.cs (w.reqs j) (resps j) hj.1 hj.2.1 hj.2.2 href]
      have hjrest : j ∉ rest := (List.nodup_cons.mp hnd).1
      have hrun : runTrace hw dev w ((j :: rest).map (fun x => Event.fail x (resps x))) =
          runTrace hw dev
            { w with cs := { w.cs with refreshQueue := w.cs.refreshQueue ++ [j] },
                     reqs := upd w.reqs j { w.reqs j with retry := true } }
            (rest.map (fun x => Event.fail x (resps x))) := by
        simp only [List.map_cons, runTrace, List.foldl_cons, hstep]
      have hih := ih
        { w with cs := { w.cs with refreshQueue := w.cs.refreshQueue ++ [j] },
                 reqs := upd w.reqs j { w.reqs j with retry := true } }
        href (List.nodup_cons.mp hnd).2
        (by
          intro j' hj'
          have hne : j' ≠ j := fun h => hjrest (h ▸ hj')
          simpa [upd, hne] using hok j' (List.mem_cons_of_mem j hj'))
      rw [hrun]
      refine ⟨?_, hih.2.1, hih.2.2.1, hih.2.2.2.1, ?_, ?_⟩
      · rw [hih.1]
        simp
      · intro j' hj'
        rcases List.mem_cons.mp hj' with rfl | hmem
        · rw [hih.2.2.2.2.2 j' hjrest]
          simp [upd]
        · rw [hih.2.2.2.2.1 j' hmem]
          have hne : j' ≠ j := fun h => hjrest (h ▸ hmem)
          simp [upd, hne]
      · intro k hk
        have hkj : k ≠ j := fun h => hk (h ▸ List.mem_cons_self j rest)
        have hkrest : k ∉ rest := fun h => hk (List.mem_cons_of_mem j h)
        rw [hih.2.2.2.2.2 k hkrest]
        simp [upd, hkj]

/-- Draining the waiter queue after a successful refresh with a truthy
token `t`: the client state is untouched by the callbacks themselves,
every drained waiter's promise adopts a resubmission whose headers
carry `Authorization: Bearer t`, everyone else's entries are untouched,
and exactly the drained ids are appended to the sent log in order. -/
lemma drainAll_ok (hw : Bool) (dev : DeviceInfo) (t : String) (ht : t ≠ "")
    (js : List Nat) :
    ∀ w : World, js.Nodup →
    (js.foldl (drainOne hw dev (some t) (some t)) w).cs = w.cs ∧
    (js.foldl (drainOne hw dev (some t) (some t)) w).initiator = w.initiator ∧
    (∀ j ∈ js, ∃ h : Headers,
        (js.foldl (drainOne hw dev (some t) (some t)) w).outcomes j =
          some (.replayed h) ∧ h.authorization = some ("Bearer " ++ t)) ∧
    (∀ k, k ∉ js →
        (js.foldl (drainOne hw dev (some t) (some t)) w).outcomes k = w.outcomes k ∧
        (js.foldl (drainOne hw dev (some t) (some t)) w).reqs k = w.reqs k) ∧
    (∃ l : List (Nat × Headers),
        (js.foldl (drainOne hw dev (some t) (some t)) w).sent = w.sent ++ l ∧
        l.map Prod.fst = js) := by
  induction js with
  | nil =>
      intro w _
      exact ⟨rfl, rfl, by simp, fun k _ => ⟨rfl, rfl⟩, ⟨[], by simp, rfl⟩⟩
  | cons j rest ih =>
      intro w hnd
      have hjrest : j ∉ rest := (List.nodup_cons.mp hnd).1
      have hone : drainOne hw dev (some t) (some t) w j =
          { w with
              reqs := upd w.reqs j
                { w.reqs j with headers :=
                    { (w.reqs j).headers with authorization := some ("Bearer " ++ t) } },
              outcomes := upd w.outcomes j (some (.replayed
                (requestInterceptor (some t) hw dev
                  { (w.reqs j).headers with authorization := some ("Bearer " ++ t) }))),
              sent := w.sent ++ [(j, requestInterceptor (some t) hw dev
                  { (w.reqs j).headers with authorization := some ("Bearer " ++ t) })] } := by
        simp [drainOne, ht]
      have hih := ih (drainOne hw dev (some t) (some t) w j) (List.nodup_cons.mp hnd).2
      simp only [List.foldl_cons]
      refine ⟨?_, ?_, ?_, ?_, ?_⟩
      · rw [hih.1, hone]
      · rw [hih.2.1, hone]
      · intro j' hj'
        rcases List.mem_cons.mp hj' with rfl | hmem
        · refine ⟨requestInterceptor (some t) hw dev
            { (w.reqs j').headers with authorization := some ("Bearer " ++ t) }, ?_,
            requestInterceptor_auth_some t ht hw dev _⟩
          rw [(hih.2.2.2.1 j' hjrest).1, hone]
          simp [upd]
        · exact hih.2.2.1 j' hmem
      · intro k hk
        have hkj : k ≠ j := fun h => hk (h ▸ List.mem_cons_self j rest)
        have hkrest : k ∉ rest := fun h => hk (List.mem_cons_of_mem j h)
        have := hih.2.2.2.1 k hkrest
        rw [this.1, this.2, hone]
        constructor <;> simp [upd, hkj]
      · rcases hih.2.2.2.2 with ⟨l, hl, hlm⟩
        refine ⟨(j, requestInterceptor (some t) hw dev
            { (w.reqs j).headers with authorization := some ("Bearer " ++ t) }) :: l, ?_, ?_⟩
        · rw [hl, hone]
          simp
        · simp [hlm]

lemma upd_self {α : Type} (f : Nat → α) (i : Nat) : upd f i (f i) = f := by
  funext j
  by_cases h : j = i <;> simp [upd, h]

/-- Draining the waiter queue after a failed refresh: every callback is
invoked with `null`, so no header is rewritten and each waiter's
promise adopts a resubmission of its original request as-is — its
Authorization header is whatever the config already carried; the client
state and the request table are untouched. -/
lemma drainAll_none (hw : Bool) (dev : DeviceInfo) (js : List Nat) :
    ∀ w : World, js.Nodup →
    (js.foldl (drainOne hw dev none none) w).cs = w.cs ∧
    (js.foldl (drainOne hw dev none none) w).initiator = w.initiator ∧
    (js.foldl (drainOne hw dev none none) w).reqs = w.reqs ∧
    (∀ j ∈ js, ∃ h : Headers,
        (js.foldl (drainOne hw dev none none) w).outcomes j = some (.replayed h) ∧
        h.authorization = (w.reqs j).headers.authorization) ∧
    (∀ k, k ∉ js →
        (js.foldl (drainOne hw dev none none) w).outcomes k = w.outcomes k) := by
  induction js with
  | nil =>
      intro w _
      exact ⟨rfl, rfl, rfl, by simp, fun k _ => rfl⟩
  | cons j rest ih =>
      intro w hnd
      have hjrest : j ∉ rest := (List.nodup_cons.mp hnd).1
      have hone : drainOne hw dev none none w j =
          { w with
              outcomes := upd w.outcomes j (some (.replayed
                (requestInterceptor none hw dev (w.reqs j).headers))),
              sent := w.sent ++ [(j, requestInterceptor none hw dev (w.reqs j).headers)] } := by
        simp [drainOne, upd_self]
      have hih := ih (drainOne hw dev none none w j) (List.nodup_cons.mp hnd).2
      simp only [List.foldl_cons]
      refine ⟨?_, ?_, ?_, ?_, ?_⟩
      · rw [hih.1, hone]
      · rw [hih.2.1, hone]
      · rw [hih.2.2.1, hone]
      · intro j' hj'
        rcases List.mem_cons.mp hj' with rfl | hmem
        · refine ⟨requestInterceptor none hw dev (w.reqs j').headers, ?_,
            requestInterceptor_auth_falsy none rfl hw dev _⟩
          rw [hih.2.2.2.2 j' hjrest, hone]
          simp [upd]
        · rcases hih.2.2.2.1 j' hmem with ⟨h, hh, hauth⟩
          refine ⟨h, hh, ?_⟩
          rw [hauth, hone]
      · intro k hk
        have hkj : k ≠ j := fun h => hk (h ▸ List.mem_cons_self j rest)
        have hkrest : k ∉ rest := fun h => hk (List.mem_cons_of_mem j h)
        rw [hih.2.2.2.2 k hkrest, hone]
        simp [upd, hkj]

/-- Settlement of a successful refresh (secureAxios.ts lines 145-158),
given the refresh was initiated by request `i` with waiter queue `q`:
the new truthy token is stored, the flag drops, the queue empties, no
further refresh call is made, request `i` and every waiter resolve into
a resubmission carrying `Authorization: Bearer t`, other requests'
outcomes are untouched, and exactly `q ++ [i]` is appended to the sent
log. -/
lemma refreshOkEvent_spec (hw : Bool) (dev : DeviceInfo) (t : String) (ht : t ≠ "")
    (w : World) (i : Nat) (q : List Nat)
    (hinit : w.initiator = some i) (hq : w.cs.refreshQueue = q)
    (hnd : q.Nodup) (hi : i ∉ q) :
    (refreshOkEvent hw dev t w).cs.accessToken = some t ∧
    (refreshOkEvent hw dev t w).cs.isRefreshing = false ∧
    (refreshOkEvent hw dev t w).cs.refreshQueue = [] ∧
    (refreshOkEvent hw dev t w).cs.refreshCalls = w.cs.refreshCalls ∧
    (refreshOkEvent hw dev t w).initiator = none ∧
    (∃ h : Headers, (refreshOkEvent hw dev t w).outcomes i = some (.replayed h) ∧
        h.authorization = some ("Bearer " ++ t)) ∧
    (∀ j ∈ q, ∃ h : Headers, (refreshOkEvent hw dev t w).outcomes j =
        some (.replayed h) ∧ h.authorization = some ("Bearer " ++ t)) ∧
    (∀ k, k ∉ q → k ≠ i → (refreshOkEvent hw dev t w).outcomes k = w.outcomes k) ∧
    (∃ l : List (Nat × Headers), (refreshOkEvent hw dev t w).sent = w.sent ++ l ∧
        l.map Prod.fst = q ++ [i]) := by
  have hqb : (bridgeSetW (some t) w).cs.refreshQueue = q := hq
  have hev : refreshOkEvent hw dev t w =
      settleOk hw dev t i
        (q.foldl (drainOne hw dev (some t) (some t)) (bridgeSetW (some t) w)) := by
    simp only [refreshOkEvent, hinit, hqb]
  have hd := drainAll_ok hw dev t ht q (bridgeSetW (some t) w) hnd
  rw [hev]
  refine ⟨?_, ?_, ?_, ?_, ?_, ?_, ?_, ?_, ?_⟩
  · simp only [settleOk]
    rw [hd.1]
    rfl
  · simp [settleOk]
  · simp [settleOk]
  · simp only [settleOk]
    rw [hd.1]
    rfl
  · simp [settleOk]
  · refine ⟨requestInterceptor (some t) hw dev
      (replayCfg t ((q.foldl (drainOne hw dev (some t) (some t))
        (bridgeSetW (some t) w)).reqs i)).headers, ?_,
      requestInterceptor_auth_some t ht hw dev _⟩
    simp [settleOk, upd]
  · intro j hj
    rcases hd.2.2.1 j hj with ⟨h, hh, hauth⟩
    refine ⟨h, ?_, hauth⟩
    have hji : j ≠ i := fun hE => hi (hE ▸ hj)
    simp only [settleOk, upd, if_neg hji]
    exact hh
  · intro k hk hki
    simp only [settleOk, upd, if_neg hki]
    exact (hd.2.2.2.1 k hk).1
  · rcases hd.2.2.2.2 with ⟨l, hl, hlm⟩
    refine ⟨l ++ [(i, requestInterceptor (some t) hw dev
      (replayCfg t ((q.foldl (drainOne hw dev (some t) (some t))
        (bridgeSetW (some t) w)).reqs i)).headers)], ?_, ?_⟩
    · simp only [settleOk]
      rw [hl]
      simp [bridgeSetW]
    · simp [hlm]

/-- Settlement of a failed refresh (secureAxios.ts lines 159-165),
given the refresh was initiated by request `i` with waiter queue `q`:
the token is cleared, the flag drops, the queue empties, the initiating
request rejects with the refresh failure itself — but every queued
waiter instead resolves into a resubmission of its original request
whose Authorization header is whatever its config already carried, and
other requests' outcomes are untouched. -/
lemma refreshFailEvent_spec (hw : Bool) (dev : DeviceInfo)
    (w : World) (i : Nat) (q : List Nat)
    (hinit : w.initiator = some i) (hq : w.cs.refreshQueue = q)
    (hnd : q.Nodup) (hi : i ∉ q) :
    (refreshFailEvent hw dev w).cs.accessToken = none ∧
    (refreshFailEvent hw dev w).cs.isRefreshing = false ∧
    (refreshFailEvent hw dev w).cs.refreshQueue = [] ∧
    (refreshFailEvent hw dev w).cs.refreshCalls = w.cs.refreshCalls ∧
    (refreshFailEvent hw dev w).initiator = none ∧
    (refreshFailEvent hw dev w).outcomes i = some .rejectedRefreshErr ∧
    (∀ j ∈ q, ∃ h : Headers, (refreshFailEvent hw dev w).outcomes j =
        some (.replayed h) ∧ h.authorization = (w.reqs j).headers.authorization) ∧
    (∀ k, k ∉ q → k ≠ i → (refreshFailEvent hw dev w).outcomes k = w.outcomes k) := by
  have hqb : (bridgeSetW none w).cs.refreshQueue = q := hq
  have hev : refreshFailEvent hw dev w =
      settleFail i (q.foldl (drainOne hw dev none none) (bridgeSetW none w)) := by
    simp only [refreshFailEvent, hinit, hqb]
  have hd := drainAll_none hw dev q (bridgeSetW none w) hnd
  rw [hev]
  refine ⟨?_, ?_, ?_, ?_, ?_, ?_, ?_, ?_⟩
  · simp only [settleFail]
    rw [hd.1]
    rfl
  · simp [settleFail]
  · simp [settleFail]
  · simp only [settleFail]
    rw [hd.1]
    rfl
  · simp [settleFail]
  · simp [settleFail, upd]
  · intro j hj
    rcases hd.2.2.2.1 j hj with ⟨h, hh, hauth⟩
    have hji : j ≠ i := fun hE => hi (hE ▸ hj)
    refine ⟨h, ?_, hauth⟩
    simp only [settleFail, upd, if_neg hji]
    exact hh
  · intro k hk hki
    simp only [settleFail, upd, if_neg hki]
    exact hd.2.2.2.2 k hk

lemma failEvent_start (hw : Bool) (i : Nat) (resp : RespInfo) (tok0 : Option String)
    (cfgs : Nat → ReqConfig)
    (h401 : resp.status = 401) (hna : isAuthEndpoint ((cfgs i).url) = false)
    (hr : (cfgs i).retry = false) :
    failEvent hw i resp (initialWorld tok0 cfgs) =
      { cs := ⟨tok0, true, [], 1, 0⟩,
        reqs := upd cfgs i { cfgs i with retry := true },
        outcomes := fun _ => none, sent := [], initiator := some i } := by
  simp [failEvent, initialWorld,
    respondError_start hw i ⟨tok0, false, [], 0, 0⟩ (cfgs i) resp h401 hna hr rfl]

/-- C1. Single-flight refresh: starting with no refresh in flight, when
the requests `i :: rest` (any number N ≥ 1 of them, pairwise distinct,
none an auth endpoint, none yet retried) each receive a 401 in any
order before the refresh settles, and the refresh then succeeds with a
truthy token `t`, then: exactly one refresh call was issued over the
whole run; every one of the N requests ends resolved into a
resubmission carrying `Authorization: Bearer t` — the token the refresh
produced; every one of them is resubmitted exactly once; and the
coordinator returns to idle (flag down, queue empty) with `t` as the
held token. -/
theorem c1_single_flight (hw : Bool) (dev : DeviceInfo) (resps : Nat → RespInfo)
    (cfgs : Nat → ReqConfig) (tok0 : Option String) (t : String)
    (i : Nat) (rest : List Nat) (ht : t ≠ "")
    (hnd : (i :: rest).Nodup)
    (h401 : ∀ j ∈ i :: rest, (resps j).status = 401)
    (hnonauth : ∀ j ∈ i :: rest, isAuthEndpoint ((cfgs j).url) = false)
    (hretry : ∀ j ∈ i :: rest, (cfgs j).retry = false) :
    ∀ w' : World, w' = runTrace hw dev (initialWorld tok0 cfgs)
        ((i :: rest).map (fun j => Event.fail j (resps j)) ++ [Event.refreshOk t]) →
    w'.cs.refreshCalls = 1 ∧
    (∀ j ∈ i :: rest, ∃ h : Headers,
        w'.outcomes j = some (.replayed h) ∧ h.authorization = some ("Bearer " ++ t)) ∧
    (∀ j ∈ i :: rest, sentCount w' j = 1) ∧
    w'.cs.isRefreshing = false ∧
    w'.cs.refreshQueue = [] ∧
    w'.cs.accessToken = some t := by
  intro w' hw'
  have hirest : i ∉ rest := (List.nodup_cons.mp hnd).1
  have hndr : rest.Nodup := (List.nodup_cons.mp hnd).2
  have hmi := List.mem_cons_self i rest
  have hW1 : failEvent hw i (resps i) (initialWorld tok0 cfgs) =
      { cs := ⟨tok0, true, [], 1, 0⟩,
        reqs := upd cfgs i { cfgs i with retry := true },
        outcomes := fun _ => none, sent := [], initiator := some i } :=
    failEvent_start hw i (resps i) tok0 cfgs (h401 i hmi) (hnonauth i hmi) (hretry i hmi)
  have hsplit : w' = refreshOkEvent hw dev t (runTrace hw dev
      { cs := ⟨tok0, true, [], 1, 0⟩,
        reqs := upd cfgs i { cfgs i with retry := true },
        outcomes := fun _ => none, sent := [], initiator := some i }
      (rest.map (fun j => Event.fail j (resps j)))) := by
    rw [hw']
    simp only [runTrace, List.map_cons, List.cons_append, List.foldl_cons, List.foldl_append,
      List.foldl_nil, stepEvent]
    rw [hW1]
  have hA := runFails_refreshing hw dev resps rest
    { cs := ⟨tok0, true, [], 1, 0⟩,
      reqs := upd cfgs i { cfgs i with retry := true },
      outcomes := fun _ => none, sent := [], initiator := some i }
    rfl hndr (by
      intro j hj
      have hne : j ≠ i := fun hE => hirest (hE ▸ hj)
      refine ⟨h401 j (List.mem_cons_of_mem i hj), ?_, ?_⟩
      · simpa [upd, hne] using hnonauth j (List.mem_cons_of_mem i hj)
      · simpa [upd, hne] using hretry j (List.mem_cons_of_mem i hj))
  have hqW2 : (runTrace hw dev
      { cs := ⟨tok0, true, [], 1, 0⟩,
        reqs := upd cfgs i { cfgs i with retry := true },
        outcomes := fun _ => none, sent := [], initiator := some i }
      (rest.map (fun j => Event.fail j (resps j)))).cs.refreshQueue = rest := by
    have := congrArg ClientState.refreshQueue hA.1
    simpa using this
  have hcalls : (runTrace hw dev
      { cs := ⟨tok0, true, [], 1, 0⟩,
        reqs := upd cfgs i { cfgs i with retry := true },
        outcomes := fun _ => none, sent := [], initiator := some i }
      (rest.map (fun j => Event.fail j (resps j)))).cs.refreshCalls = 1 := by
    have := congrArg ClientState.refreshCalls hA.1
    simpa using this
  have hspec := refreshOkEvent_spec hw dev t ht
    (runTrace hw dev
      { cs := ⟨tok0, true, [], 1, 0⟩,
        reqs := upd cfgs i { cfgs i with retry := true },
        outcomes := fun _ => none, sent := [], initiator := some i }
      (rest.map (fun j => Event.fail j (resps j)))) i rest
    (by rw [hA.2.1]) hqW2 hndr hirest
  rw [hsplit]
  refine ⟨?_, ?_, ?_, hspec.2.1, hspec.2.2.1, hspec.1⟩
  · rw [hspec.2.2.2.1, hcalls]
  · intro j hj
    rcases List.mem_cons.mp hj with hE | hmem
    · subst hE
      exact hspec.2.2.2.2.2.1
    · exact hspec.2.2.2.2.2.2.1 j hmem
  · intro j hj
    rcases hspec.2.2.2.2.2.2.2.2 with ⟨l, hl, hlm⟩
    have hsent0 : (runTrace hw dev
        { cs := ⟨tok0, true, [], 1, 0⟩,
          reqs := upd cfgs i { cfgs i with retry := true },
          outcomes := fun _ => none, sent := [], initiator := some i }
        (rest.map (fun j => Event.fail j (resps j)))).sent = [] := hA.2.2.2.1
    have hcount := filter_fst_map hlm j
    rw [sentCount, hl, hsent0, List.nil_append, hcount]
    rcases List.mem_cons.mp hj with hE | hmem
    · subst hE
      rw [List.filter_append, List.length_append, filter_beq_length_zero hirest]
      simp
    · have hne : (i == j) = false := by
        simp only [beq_eq_false_iff_ne]
        rintro rfl
        exact hirest hmem
      rw [List.filter_append, List.length_append, filter_beq_length_one hndr hmem]
      simp [List.filter_cons, hne]

theorem c1_single_flight_witness :
    (runTrace true ⟨some "d-1", "Linux desktop"⟩
        (initialWorld (some "T1") (fun _ => ⟨some "/api/items", ⟨none, none, none⟩, false⟩))
        (([0, 1, 2] : List Nat).map (fun j => Event.fail j ⟨401, false, false⟩) ++
          [Event.refreshOk "T2"])).cs.refreshCalls = 1 ∧
    (runTrace true ⟨some "d-1", "Linux desktop"⟩
        (initialWorld (some "T1") (fun _ => ⟨some "/api/items", ⟨none, none, none⟩, false⟩))
        (([0, 1, 2] : List Nat).map (fun j => Event.fail j ⟨401, false, false⟩) ++
          [Event.refreshOk "T2"])).cs.accessToken = some "T2" := by
  have h := c1_single_flight true ⟨some "d-1", "Linux desktop"⟩
    (fun _ => ⟨401, false, false⟩)
    (fun _ => ⟨some "/api/items", ⟨none, none, none⟩, false⟩) (some "T1") "T2" 0 [1, 2]
    (by decide) (by decide) (fun j _ => rfl) (fun j _ => rfl) (fun j _ => rfl)
    _ rfl
  exact ⟨h.1, h.2.2.2.2.2⟩

/-- C2 amended. When the requests `i :: rest` each receive a 401 while
no refresh is in flight and the single refresh call then fails: the
Token Holder is cleared (the held token is `none`), and the initiating
request `i` rejects with the refresh failure itself; but each queued
waiter, instead of rejecting with the refresh failure, resolves into a
resubmission of its original request whose Authorization header is
whatever its config already carried (no fresh token was attached); the
coordinator returns to idle. -/
theorem c2_amended_refresh_failure (hw : Bool) (dev : DeviceInfo) (resps : Nat → RespInfo)
    (cfgs : Nat → ReqConfig) (tok0 : Option String)
    (i : Nat) (rest : List Nat)
    (hnd : (i :: rest).Nodup)
    (h401 : ∀ j ∈ i :: rest, (resps j).status = 401)
    (hnonauth : ∀ j ∈ i :: rest, isAuthEndpoint ((cfgs j).url) = false)
    (hretry : ∀ j ∈ i :: rest, (cfgs j).retry = false) :
    ∀ w' : World, w' = runTrace hw dev (initialWorld tok0 cfgs)
        ((i :: rest).map (fun j => Event.fail j (resps j)) ++ [Event.refreshFailed]) →
    w'.cs.accessToken = none ∧
    w'.outcomes i = some .rejectedRefreshErr ∧
    (∀ j ∈ rest, ∃ h : Headers, w'.outcomes j = some (.replayed h) ∧
        h.authorization = (cfgs j).headers.authorization) ∧
    w'.cs.isRefreshing = false ∧
    w'.cs.refreshQueue = [] := by
  intro w' hw'
  have hirest : i ∉ rest := (List.nodup_cons.mp hnd).1
  have hndr : rest.Nodup := (List.nodup_cons.mp hnd).2
  have hmi := List.mem_cons_self i rest
  have hW1 : failEvent hw i (resps i) (initialWorld tok0 cfgs) =
      { cs := ⟨tok0, true, [], 1, 0⟩,
        reqs := upd cfgs i { cfgs i with retry := true },
        outcomes := fun _ => none, sent := [], initiator := some i } :=
    failEvent_start hw i (resps i) tok0 cfgs (h401 i hmi) (hnonauth i hmi) (hretry i hmi)
  have hsplit : w' = refreshFailEvent hw dev (runTrace hw dev
      { cs := ⟨tok0, true, [], 1, 0⟩,
        reqs := upd cfgs i { cfgs i with retry := true },
        outcomes := fun _ => none, sent := [], initiator := some i }
      (rest.map (fun j => Event.fail j (resps j)))) := by
    rw [hw']
    simp only [runTrace, List.map_cons, List.cons_append, List.foldl_cons, List.foldl_append,
      List.foldl_nil, stepEvent]
    rw [hW1]
  have hA := runFails_refreshing hw dev resps rest
    { cs := ⟨tok0, true, [], 1, 0⟩,
      reqs := upd cfgs i { cfgs i with retry := true },
      outcomes := fun _ => none, sent := [], initiator := some i }
    rfl hndr (by
      intro j hj
      have hne : j ≠ i := fun hE => hirest (hE ▸ hj)
      refine ⟨h401 j (List.mem_cons_of_mem i hj), ?_, ?_⟩
      · simpa [upd, hne] using hnonauth j (List.mem_cons_of_mem i hj)
      · simpa [upd, hne] using hretry j (List.mem_cons_of_mem i hj))
  have hqW2 : (runTrace hw dev
      { cs := ⟨tok0, true, [], 1, 0⟩,
        reqs := upd cfgs i { cfgs i with retry := true },
        outcomes := fun _ => none, sent := [], initiator := some i }
      (rest.map (fun j => Event.fail j (resps j)))).cs.refreshQueue = rest := by
    have := congrArg ClientState.refreshQueue hA.1
    simpa using this
  have hspec := refreshFailEvent_spec hw dev
    (runTrace hw dev
      { cs := ⟨tok0, true, [], 1, 0⟩,
        reqs := upd cfgs i { cfgs i with retry := true },
        outcomes := fun _ => none, sent := [], initiator := some i }
      (rest.map (fun j => Event.fail j (resps j)))) i rest
    (by rw [hA.2.1]) hqW2 hndr hirest
  rw [hsplit]
  refine ⟨hspec.1, hspec.2.2.2.2.2.1, ?_, hspec.2.1, hspec.2.2.1⟩
  intro j hj
  rcases hspec.2.2.2.2.2.2.1 j hj with ⟨h, hh, hauth⟩
  refine ⟨h, hh, ?_⟩
  rw [hauth, hA.2.2.2.2.1 j hj]
  have hne : j ≠ i := fun hE => hirest (hE ▸ hj)
  simp [upd, hne]

theorem c2_amended_refresh_failure_witness :
    (runTrace true ⟨some "d-1", "Linux desktop"⟩
        (initialWorld (some "T1")
          (fun _ => ⟨some "/api/items", ⟨some "Bearer T1", none, none⟩, false⟩))
        (([0, 1] : List Nat).map (fun j => Event.fail j ⟨401, false, false⟩) ++
          [Event.refreshFailed])).cs.accessToken = none ∧
    (runTrace true ⟨some "d-1", "Linux desktop"⟩
        (initialWorld (some "T1")
          (fun _ => ⟨some "/api/items", ⟨some "Bearer T1", none, none⟩, false⟩))
        (([0, 1] : List Nat).map (fun j => Event.fail j ⟨401, false, false⟩) ++
          [Event.refreshFailed])).outcomes 0 = some Outcome.rejectedRefreshErr := by
  have h := c2_amended_refresh_failure true ⟨some "d-1", "Linux desktop"⟩
    (fun _ => ⟨401, false, false⟩)
    (fun _ => ⟨some "/api/items", ⟨some "Bearer T1", none, none⟩, false⟩) (some "T1") 0 [1]
    (by decide) (fun j _ => rfl) (fun j _ => rfl) (fun j _ => rfl)
    _ rfl
  exact ⟨h.1, h.2.1⟩

/-- C2 counterexample. Two concrete requests fail with 401, the first
initiates the refresh and the second is queued; the refresh fails.
The claim says every pending request — queued waiters included —
rejects with the refresh failure; but the queued request 1 does not
(it is resubmitted instead), while the initiating request 0 does. -/
theorem c2_counterexample :
    ((runTrace true ⟨some "d-1", "Linux desktop"⟩
        (initialWorld (some "T1")
          (fun _ => ⟨some "/api/items", ⟨some "Bearer T1", none, none⟩, false⟩))
        [Event.fail 0 ⟨401, false, false⟩, Event.fail 1 ⟨401, false, false⟩,
          Event.refreshFailed]).outcomes 1 ≠ some Outcome.rejectedRefreshErr) ∧
    (runTrace true ⟨some "d-1", "Linux desktop"⟩
        (initialWorld (some "T1")
          (fun _ => ⟨some "/api/items", ⟨some "Bearer T1", none, none⟩, false⟩))
        [Event.fail 0 ⟨401, false, false⟩, Event.fail 1 ⟨401, false, false⟩,
          Event.refreshFailed]).outcomes 0 = some Outcome.rejectedRefreshErr := by
  constructor <;> decide

end SecureClient
